import Mathlib

/-!
Verification of `bin/ensure_cloudtrail.py` (stelligent_commons).

The script is a one-shot provisioning tool: it ensures an S3 bucket exists,
attaches a bucket policy allowing CloudTrail to write to it, and enables a
trail in every region.  We shallowly embed the script's pure logic:

* JSON policy documents become the inductive type `Json`;
* remote calls (bucket lookup, policy fetch, identity lookup, describe-trails,
  region enumeration) become explicit inputs, with `Except Nat` modelling a
  boto exception carrying an HTTP `status`;
* mutating remote calls (create bucket, set policy, create/update trail,
  start logging) become elements of an emitted call trace;
* a Python `KeyError`/`TypeError` raised while reading a statement's `Sid`
  becomes a `RunError`.
-/

/-- A JSON value, as far as the script manipulates one: strings, arrays and
objects (association lists, preserving key order as `json` in Python does for
the documents at hand). -/
inductive Json where
  | str : String → Json
  | arr : List Json → Json
  | obj : List (String × Json) → Json

/-- Lookup in a JSON object association list (Python `d[k]`, first match). -/
def lookupKV : List (String × Json) → String → Option Json
  | [], _ => none
  | (k, v) :: rest, key => if k = key then some v else lookupKV rest key

/-- Python subscript `j[k]` on an object; `none` models `KeyError` or
subscripting a non-object. -/
def Json.lookup : Json → String → Option Json
  | .obj kvs, key => lookupKV kvs key
  | _, _ => none

/-- `get_aws_account_id`: `boto.connect_iam().get_user().arn.split(':')[4]`.
The remote identity call is modelled by passing the caller's ARN in; `none`
models the `IndexError` when the ARN has fewer than five `:`-fields. -/
def get_aws_account_id (arn : String) : Option String :=
  (arn.splitOn ":").get? 4

/-- The nine hardcoded CloudTrail account-root principals, as listed (twice)
in the source. -/
def cloudtrail_principals : List String :=
  ["arn:aws:iam::903692715234:root",
   "arn:aws:iam::859597730677:root",
   "arn:aws:iam::814480443879:root",
   "arn:aws:iam::216624486486:root",
   "arn:aws:iam::086441151436:root",
   "arn:aws:iam::388731089494:root",
   "arn:aws:iam::284668455005:root",
   "arn:aws:iam::113285607260:root",
   "arn:aws:iam::035351147821:root"]

/-- `get_aws_cloudtrail_aclcheck_s3_policy_statement`: the AWSCloudTrailAclCheck
statement dictionary. -/
def get_aws_cloudtrail_aclcheck_s3_policy_statement (s3_bucket_name : String) : Json :=
  .obj [("Sid", .str "AWSCloudTrailAclCheck20131101"),
        ("Effect", .str "Allow"),
        ("Principal", .obj [("AWS", .arr (cloudtrail_principals.map .str))]),
        ("Action", .str "s3:GetBucketAcl"),
        ("Resource", .str ("arn:aws:s3:::" ++ s3_bucket_name))]

/-- `get_aws_cloudtrail_write_s3_policy_statement`: the AWSCloudTrailWrite
statement dictionary; the `%s%s/AWSLogs/%s/*` format becomes concatenation. -/
def get_aws_cloudtrail_write_s3_policy_statement (aws_account_id : String)
    (s3_bucket_name : String) (s3_pre : String) : Json :=
  .obj [("Sid", .str "AWSCloudTrailWrite20131101"),
        ("Effect", .str "Allow"),
        ("Principal", .obj [("AWS", .arr (cloudtrail_principals.map .str))]),
        ("Action", .str "s3:PutObject"),
        ("Resource", .str ("arn:aws:s3:::" ++ s3_bucket_name ++ s3_pre
                           ++ "/AWSLogs/" ++ aws_account_id ++ "/*")),
        ("Condition", .obj [("StringEquals",
           .obj [("s3:x-amz-acl", .str "bucket-owner-full-control")])])]

/-- C3: for every bucket name B, key path P and account id A, the write
statement's Resource is the string arn:aws:s3:::BP/AWSLogs/A/* and its
Condition requires s3:x-amz-acl to equal bucket-owner-full-control. -/
theorem write_statement_resource_and_condition (A B P : String) :
    (get_aws_cloudtrail_write_s3_policy_statement A B P).lookup "Resource"
      = some (.str ("arn:aws:s3:::" ++ B ++ P ++ "/AWSLogs/" ++ A ++ "/*")) ∧
    (get_aws_cloudtrail_write_s3_policy_statement A B P).lookup "Condition"
      = some (.obj [("StringEquals",
          .obj [("s3:x-amz-acl", .str "bucket-owner-full-control")])]) := by
  constructor <;> rfl

/-- C4: both generated statements carry exactly the fixed list of nine
account-root principals, whatever the bucket, account id or key path. -/
theorem statements_principal_set_fixed (A B P : String) :
    (get_aws_cloudtrail_aclcheck_s3_policy_statement B).lookup "Principal"
      = some (.obj [("AWS", .arr (cloudtrail_principals.map .str))]) ∧
    (get_aws_cloudtrail_write_s3_policy_statement A B P).lookup "Principal"
      = some (.obj [("AWS", .arr (cloudtrail_principals.map .str))]) ∧
    cloudtrail_principals =
      ["arn:aws:iam::903692715234:root",
       "arn:aws:iam::859597730677:root",
       "arn:aws:iam::814480443879:root",
       "arn:aws:iam::216624486486:root",
       "arn:aws:iam::086441151436:root",
       "arn:aws:iam::388731089494:root",
       "arn:aws:iam::284668455005:root",
       "arn:aws:iam::113285607260:root",
       "arn:aws:iam::035351147821:root"] := by
  exact ⟨rfl, rfl, rfl⟩

/-- Errors a run can raise besides clean completion: a boto exception carrying
an HTTP status, or a Python `KeyError`/`TypeError` at the named key. -/
inductive RunError where
  | httpError : Nat → RunError
  | keyError : String → RunError
deriving DecidableEq

/-- Whether string `p` is a prefix of string `s`, computed on the character
lists (structurally recursive, so it evaluates definitionally). -/
def strStartsWith (p s : String) : Bool :=
  List.isPrefixOf p.data s.data

/-- The statement-removal test
`re.match('^AWSCloudTrailAclCheck|AWSCloudTrailWrite', sid)`: `re.match`
anchors every alternative at position 0, so the sid matches iff it begins
with "AWSCloudTrailAclCheck" or with "AWSCloudTrailWrite" (a prefix match,
never anchored at the end). -/
def sid_matches_cloudtrail (sid : String) : Bool :=
  strStartsWith "AWSCloudTrailAclCheck" sid || strStartsWith "AWSCloudTrailWrite" sid

/-- The statement-filtering loop of `ensure_bucket_policy`: keep every
existing statement whose Sid does not match, drop the ones that do, raise
(`KeyError`, or `TypeError` inside `re.match`) when a statement has no
string `Sid`. -/
def stripStatements : List Json → Except RunError (List Json)
  | [] => .ok []
  | s :: rest =>
    match s.lookup "Sid" with
    | some (.str sid) =>
      if sid_matches_cloudtrail sid then stripStatements rest
      else
        match stripStatements rest with
        | .ok kept => .ok (s :: kept)
        | .error e => .error e
    | _ => .error (.keyError "Sid")

/-- The `new_policy` skeleton `{'Version': '2012-10-17', 'Statement': [...]}`
with its final statement list. -/
def mkPolicy (stmts : List Json) : Json :=
  .obj [("Version", .str "2012-10-17"), ("Statement", .arr stmts)]

/-- `ensure_bucket_policy`, as the function from the `get_policy` outcome to
the policy handed to `set_policy`.  A fetch error with status 404 means "no
existing policy"; any other fetch status is re-raised; a successful fetch is
the parsed existing document.  The returned `Json` is the document passed to
`set_policy`; an `error` result means `set_policy` is never called. -/
def ensure_bucket_policy (get_policy_result : Except Nat Json)
    (aws_account_id : String) (bucket_name : String) (s3_pre : String) :
    Except RunError Json :=
  match get_policy_result with
  | .error status =>
    if status ≠ 404 then .error (.httpError status)
    else .ok (mkPolicy
      [get_aws_cloudtrail_aclcheck_s3_policy_statement bucket_name,
       get_aws_cloudtrail_write_s3_policy_statement aws_account_id bucket_name s3_pre])
  | .ok existing =>
    match existing.lookup "Statement" with
    | some (.arr stmts) =>
      match stripStatements stmts with
      | .ok kept => .ok (mkPolicy (kept
          ++ [get_aws_cloudtrail_aclcheck_s3_policy_statement bucket_name,
              get_aws_cloudtrail_write_s3_policy_statement aws_account_id bucket_name s3_pre]))
      | .error e => .error e
    | _ => .error (.keyError "Statement")

/-- The `Statement` list of a policy document (empty when absent). -/
def statementsOf (policy : Json) : List Json :=
  match policy.lookup "Statement" with
  | some (.arr stmts) => stmts
  | _ => []

/-- Whether a statement's `Sid` is the given string. -/
def hasSid (s : Json) (sid : String) : Bool :=
  match s.lookup "Sid" with
  | some (.str x) => x == sid
  | _ => false

/-- How many statements of a list carry the given `Sid`. -/
def countWithSid (stmts : List Json) (sid : String) : Nat :=
  stmts.countP (fun s => hasSid s sid)

theorem statementsOf_mkPolicy (l : List Json) : statementsOf (mkPolicy l) = l := rfl

/-- Whether a statement carries a string-valued `Sid` (the precondition for
`policy_statement['Sid']` plus `re.match` not to raise). -/
def hasStrSid (s : Json) : Bool :=
  match s.lookup "Sid" with
  | some (.str _) => true
  | _ => false

/-- Whether the merge copies a statement forward: it has a string `Sid` that
does not match the CloudTrail prefixes. -/
def keepStmt (s : Json) : Bool :=
  match s.lookup "Sid" with
  | some (.str sid) => !sid_matches_cloudtrail sid
  | _ => false

theorem stripStatements_ok_hasStrSid {stmts kept : List Json}
    (h : stripStatements stmts = .ok kept) :
    ∀ s ∈ stmts, hasStrSid s = true := by
  induction stmts generalizing kept with
  | nil => simp
  | cons s rest ih =>
    intro x hx
    rw [List.mem_cons] at hx
    simp only [stripStatements] at h
    cases hs : s.lookup "Sid" with
    | none => simp only [hs] at h; cases h
    | some j =>
      cases j with
      | str sid =>
        simp only [hs] at h
        rcases hx with rfl | hx
        · simp [hasStrSid, hs]
        · cases hm : sid_matches_cloudtrail sid with
          | true =>
            simp only [hm, if_true] at h
            exact ih h x hx
          | false =>
            simp only [hm, Bool.false_eq_true, if_false] at h
            cases hr : stripStatements rest with
            | ok kept2 => exact ih hr x hx
            | error e => simp only [hr] at h; cases h
      | arr l => simp only [hs] at h; cases h
      | obj l => simp only [hs] at h; cases h

theorem stripStatements_all_ok {stmts : List Json}
    (h : ∀ s ∈ stmts, hasStrSid s = true) :
    stripStatements stmts = .ok (stmts.filter keepStmt) := by
  induction stmts with
  | nil => rfl
  | cons s rest ih =>
    have hhead := h s (List.mem_cons_self _ _)
    have hrest : ∀ x ∈ rest, hasStrSid x = true :=
      fun x hx => h x (List.mem_cons_of_mem _ hx)
    cases hs : s.lookup "Sid" with
    | none => simp only [hasStrSid, hs] at hhead; cases hhead
    | some j =>
      cases j with
      | str sid =>
        cases hm : sid_matches_cloudtrail sid with
        | true =>
          simp [stripStatements, hs, hm, List.filter_cons, keepStmt, ih hrest]
        | false =>
          simp [stripStatements, hs, hm, List.filter_cons, keepStmt, ih hrest]
      | arr l => simp only [hasStrSid, hs] at hhead; cases hhead
      | obj l => simp only [hasStrSid, hs] at hhead; cases hhead

theorem stripStatements_ok_eq {stmts kept : List Json}
    (h : stripStatements stmts = .ok kept) :
    kept = stmts.filter keepStmt := by
  have hall := stripStatements_ok_hasStrSid h
  rw [stripStatements_all_ok hall] at h
  injection h with h
  exact h.symm

theorem hasStrSid_iff {s : Json} :
    hasStrSid s = true ↔ ∃ sid, s.lookup "Sid" = some (.str sid) := by
  unfold hasStrSid
  cases hl : s.lookup "Sid" with
  | none => simp
  | some j => cases j <;> simp

theorem keepStmt_hasStrSid {s : Json} (h : keepStmt s = true) : hasStrSid s = true := by
  unfold keepStmt at h
  unfold hasStrSid
  cases hl : s.lookup "Sid" with
  | none => simp only [hl] at h; exact Bool.noConfusion h
  | some j =>
    cases j with
    | str sid => rfl
    | arr l => simp only [hl] at h; exact Bool.noConfusion h
    | obj l => simp only [hl] at h; exact Bool.noConfusion h

theorem hasSid_matches_not_kept {s : Json} {sid : String}
    (hk : keepStmt s = true) (hm : sid_matches_cloudtrail sid = true) :
    hasSid s sid = false := by
  unfold keepStmt at hk
  unfold hasSid
  cases hl : s.lookup "Sid" with
  | none => rfl
  | some j =>
    cases j with
    | str x =>
      simp only [hl] at hk ⊢
      cases hbe : x == sid with
      | false => rfl
      | true =>
        have hx : x = sid := by simpa using hbe
        subst hx
        rw [hm] at hk
        cases hk
    | arr l => rfl
    | obj l => rfl

theorem countWithSid_append (l1 l2 : List Json) (sid : String) :
    countWithSid (l1 ++ l2) sid = countWithSid l1 sid + countWithSid l2 sid := by
  simp [countWithSid, List.countP_append]

theorem countWithSid_kept_zero {kept : List Json} {sid : String}
    (hkept : ∀ s ∈ kept, keepStmt s = true)
    (hm : sid_matches_cloudtrail sid = true) :
    countWithSid kept sid = 0 := by
  simp only [countWithSid, List.countP_eq_zero]
  intro s hs
  simp [hasSid_matches_not_kept (hkept s hs) hm]

theorem ensure_bucket_policy_mkPolicy (stmts : List Json) (A B P : String) :
    ensure_bucket_policy (.ok (mkPolicy stmts)) A B P =
      match stripStatements stmts with
      | .ok kept => .ok (mkPolicy (kept
          ++ [get_aws_cloudtrail_aclcheck_s3_policy_statement B,
              get_aws_cloudtrail_write_s3_policy_statement A B P]))
      | .error e => .error e := rfl

theorem ensure_bucket_policy_ok_cases {fetch : Except Nat Json}
    {A B P : String} {Q : Json}
    (h : ensure_bucket_policy fetch A B P = .ok Q) :
    ∃ kept : List Json,
      Q = mkPolicy (kept
          ++ [get_aws_cloudtrail_aclcheck_s3_policy_statement B,
              get_aws_cloudtrail_write_s3_policy_statement A B P]) ∧
      (∀ s ∈ kept, keepStmt s = true) ∧
      (∀ P0, fetch = .ok P0 → ∀ s ∈ statementsOf P0, keepStmt s = true → s ∈ kept) := by
  cases fetch with
  | error status =>
    simp only [ensure_bucket_policy] at h
    by_cases h404 : status = 404
    · subst h404
      simp only [ne_eq, not_true_eq_false, if_false, Except.ok.injEq, reduceIte] at h
      refine ⟨[], by simpa using h.symm, by simp, ?_⟩
      intro P0 hP0
      cases hP0
    · rw [if_pos (by simpa using h404)] at h
      cases h
  | ok P0 =>
    simp only [ensure_bucket_policy] at h
    cases hl : P0.lookup "Statement" with
    | none => simp only [hl] at h; cases h
    | some j =>
      cases j with
      | str x => simp only [hl] at h; cases h
      | obj kvs => simp only [hl] at h; cases h
      | arr stmts =>
        simp only [hl] at h
        cases hr : stripStatements stmts with
        | error e => simp only [hr] at h; cases h
        | ok kept =>
          simp only [hr, Except.ok.injEq] at h
          have hfilter := stripStatements_ok_eq hr
          refine ⟨kept, h.symm, ?_, ?_⟩
          · intro s hs
            rw [hfilter] at hs
            exact (List.mem_filter.mp hs).2
          · intro P0' hP0' s hs hkeep
            cases hP0'
            rw [hfilter]
            apply List.mem_filter.mpr
            refine ⟨?_, hkeep⟩
            simpa [statementsOf, hl] using hs

theorem keepStmt_aclcheck (B : String) :
    keepStmt (get_aws_cloudtrail_aclcheck_s3_policy_statement B) = false := rfl

theorem keepStmt_write (A B P : String) :
    keepStmt (get_aws_cloudtrail_write_s3_policy_statement A B P) = false := rfl

theorem ensure_bucket_policy_run_again {A B P : String} {kept : List Json}
    (hkept : ∀ s ∈ kept, keepStmt s = true) :
    ensure_bucket_policy (.ok (mkPolicy (kept
        ++ [get_aws_cloudtrail_aclcheck_s3_policy_statement B,
            get_aws_cloudtrail_write_s3_policy_statement A B P]))) A B P
      = .ok (mkPolicy (kept
        ++ [get_aws_cloudtrail_aclcheck_s3_policy_statement B,
            get_aws_cloudtrail_write_s3_policy_statement A B P])) := by
  rw [ensure_bucket_policy_mkPolicy]
  have hall : ∀ s ∈ (kept
      ++ [get_aws_cloudtrail_aclcheck_s3_policy_statement B,
          get_aws_cloudtrail_write_s3_policy_statement A B P]), hasStrSid s = true := by
    intro s hs
    rcases List.mem_append.mp hs with hs | hs
    · exact keepStmt_hasStrSid (hkept s hs)
    · rw [List.mem_cons, List.mem_singleton] at hs
      rcases hs with rfl | rfl <;> rfl
  rw [stripStatements_all_ok hall, List.filter_append]
  have h1 : List.filter keepStmt kept = kept :=
    List.filter_eq_self.mpr hkept
  have h2 : List.filter keepStmt
      [get_aws_cloudtrail_aclcheck_s3_policy_statement B,
       get_aws_cloudtrail_write_s3_policy_statement A B P] = [] := by
    simp [List.filter_cons, keepStmt_aclcheck, keepStmt_write]
  rw [h1, h2, List.append_nil]

theorem countWithSid_generated_acl (A B P : String) :
    countWithSid [get_aws_cloudtrail_aclcheck_s3_policy_statement B,
                  get_aws_cloudtrail_write_s3_policy_statement A B P]
      "AWSCloudTrailAclCheck20131101" = 1 := rfl

theorem countWithSid_generated_write (A B P : String) :
    countWithSid [get_aws_cloudtrail_aclcheck_s3_policy_statement B,
                  get_aws_cloudtrail_write_s3_policy_statement A B P]
      "AWSCloudTrailWrite20131101" = 1 := rfl

theorem sid_matches_cloudtrail_iff (sid : String) :
    sid_matches_cloudtrail sid = true ↔
      ("AWSCloudTrailAclCheck".data <+: sid.data ∨
       "AWSCloudTrailWrite".data <+: sid.data) := by
  simp [sid_matches_cloudtrail, strStartsWith]

/-- C1: running the policy composer twice in a row on the same bucket is
idempotent: the second run reproduces the first run's policy, which carries
exactly one statement with Sid AWSCloudTrailAclCheck20131101 and exactly one
with Sid AWSCloudTrailWrite20131101, and every statement of the original
policy whose Sid does not start with a CloudTrail reserved prefix is still
present, unchanged, in it. -/
theorem ensure_bucket_policy_idempotent (fetch : Except Nat Json)
    (A B P : String) (Q : Json)
    (h : ensure_bucket_policy fetch A B P = .ok Q) :
    ensure_bucket_policy (.ok Q) A B P = .ok Q ∧
    countWithSid (statementsOf Q) "AWSCloudTrailAclCheck20131101" = 1 ∧
    countWithSid (statementsOf Q) "AWSCloudTrailWrite20131101" = 1 ∧
    ∀ P0, fetch = .ok P0 → ∀ s ∈ statementsOf P0,
      ∀ sid, s.lookup "Sid" = some (.str sid) →
        sid_matches_cloudtrail sid = false → s ∈ statementsOf Q := by
  obtain ⟨kept, hQ, hkept, hpres⟩ := ensure_bucket_policy_ok_cases h
  subst hQ
  refine ⟨ensure_bucket_policy_run_again hkept, ?_, ?_, ?_⟩
  · rw [statementsOf_mkPolicy, countWithSid_append,
        @countWithSid_kept_zero kept "AWSCloudTrailAclCheck20131101" hkept rfl,
        countWithSid_generated_acl]
  · rw [statementsOf_mkPolicy, countWithSid_append,
        @countWithSid_kept_zero kept "AWSCloudTrailWrite20131101" hkept rfl,
        countWithSid_generated_write]
  · intro P0 hP0 s hs sid hsid hm
    rw [statementsOf_mkPolicy]
    apply List.mem_append_left
    apply hpres P0 hP0 s hs
    simp [keepStmt, hsid, hm]

/-- C2: in the policy merge an existing statement is kept iff its Sid does
NOT begin with "AWSCloudTrailAclCheck" or "AWSCloudTrailWrite" — a prefix
match, not a full-string match; equivalently, it is dropped iff its Sid
begins with one of the two prefixes. -/
theorem strip_keeps_iff_sid_not_cloudtrail {stmts kept : List Json}
    (h : stripStatements stmts = .ok kept) (s : Json) (hmem : s ∈ stmts)
    (sid : String) (hsid : s.lookup "Sid" = some (.str sid)) :
    (s ∈ kept ↔
      ¬("AWSCloudTrailAclCheck".data <+: sid.data ∨
        "AWSCloudTrailWrite".data <+: sid.data)) := by
  have hk := stripStatements_ok_eq h
  subst hk
  rw [List.mem_filter]
  have hkeep : keepStmt s = !sid_matches_cloudtrail sid := by
    simp [keepStmt, hsid]
  constructor
  · rintro ⟨-, h2⟩ hcon
    rw [hkeep] at h2
    have hmt : sid_matches_cloudtrail sid = true :=
      (sid_matches_cloudtrail_iff sid).mpr hcon
    rw [hmt] at h2
    exact Bool.noConfusion h2
  · intro h2
    refine ⟨hmem, ?_⟩
    rw [hkeep, Bool.not_eq_true']
    cases hb : sid_matches_cloudtrail sid with
    | false => rfl
    | true => exact absurd ((sid_matches_cloudtrail_iff sid).mp hb) h2

/-- C10: the merge succeeds exactly when every statement of the fetched
policy document carries a string-valued Sid: the composer reads
policy_statement Sid unconditionally, so one statement without it makes both
the filtering loop and the whole composer fail. -/
theorem merge_defined_iff_all_sids_present (stmts : List Json) (A B P : String) :
    ((∃ kept, stripStatements stmts = .ok kept) ↔
      ∀ s ∈ stmts, ∃ sid, s.lookup "Sid" = some (.str sid)) ∧
    ((∃ q, ensure_bucket_policy (.ok (mkPolicy stmts)) A B P = .ok q) ↔
      ∀ s ∈ stmts, ∃ sid, s.lookup "Sid" = some (.str sid)) := by
  have hfirst : (∃ kept, stripStatements stmts = .ok kept) ↔
      ∀ s ∈ stmts, ∃ sid, s.lookup "Sid" = some (.str sid) := by
    constructor
    · rintro ⟨kept, hk⟩ s hs
      exact hasStrSid_iff.mp (stripStatements_ok_hasStrSid hk s hs)
    · intro hall
      exact ⟨_, stripStatements_all_ok (fun s hs => hasStrSid_iff.mpr (hall s hs))⟩
  refine ⟨hfirst, ?_⟩
  rw [ensure_bucket_policy_mkPolicy]
  cases hr : stripStatements stmts with
  | ok kept =>
    simp only
    constructor
    · intro _
      exact hfirst.mp ⟨kept, hr⟩
    · intro _
      exact ⟨_, rfl⟩
  | error e =>
    simp only
    constructor
    · rintro ⟨q, hq⟩
      exact absurd hq (by simp)
    · intro hall
      obtain ⟨kept, hk⟩ := hfirst.mpr hall
      exact absurd (hk.symm.trans hr) (by simp)

/-- A trail as returned by describe_trails; the script only ever reads the
Name attribute of a trail dictionary. -/
structure Trail where
  Name : String
deriving DecidableEq

/-- The CloudTrail API calls `ensure_cloudtrail_for_region` can issue, with
the region the connection was opened against. -/
inductive CTCall where
  | createTrail (region_name trail_name s3_bucket_name s3_key_pre : String)
      (include_global_service_events : Bool)
  | updateTrail (region_name trail_name s3_bucket_name s3_key_pre : String)
      (include_global_service_events : Bool)
  | startLogging (region_name trail_name : String)
deriving DecidableEq

/-- The region a call is directed at. -/
def CTCall.region : CTCall → String
  | .createTrail r _ _ _ _ => r
  | .updateTrail r _ _ _ _ => r
  | .startLogging r _ => r

/-- `ensure_cloudtrail_for_region`: branch on the describe_trails result; an
empty trailList leads to create_trail of a trail named Default, a non-empty
one to update_trail of the first trail's Name; both are followed by
start_logging on that trail name and carry the bucket, the key path and
include_global_service_events=True. -/
def ensure_cloudtrail_for_region (region_name : String) (trail_list : List Trail)
    (s3_bucket_name : String) (s3_pre : String) : List CTCall :=
  match trail_list with
  | [] =>
    [.createTrail region_name "Default" s3_bucket_name s3_pre true,
     .startLogging region_name "Default"]
  | t :: _ =>
    [.updateTrail region_name t.Name s3_bucket_name s3_pre true,
     .startLogging region_name t.Name]

/-- `ensure_cloudtrail`: loop over the region list, one
`ensure_cloudtrail_for_region` per region, in order. -/
def ensure_cloudtrail (regions : List String) (describe_trails : String → List Trail)
    (s3_bucket_name : String) (s3_pre : String) : List CTCall :=
  (regions.map
    (fun r => ensure_cloudtrail_for_region r (describe_trails r) s3_bucket_name s3_pre)).flatten

theorem ensure_cloudtrail_nil (describe_trails : String → List Trail) (b p : String) :
    ensure_cloudtrail [] describe_trails b p = [] := rfl

theorem ensure_cloudtrail_cons (r : String) (regions : List String)
    (describe_trails : String → List Trail) (b p : String) :
    ensure_cloudtrail (r :: regions) describe_trails b p =
      ensure_cloudtrail_for_region r (describe_trails r) b p
        ++ ensure_cloudtrail regions describe_trails b p := rfl

theorem ensure_for_region_region (r b p : String) (tl : List Trail) :
    ∀ c ∈ ensure_cloudtrail_for_region r tl b p, c.region = r := by
  intro c hc
  cases tl with
  | nil =>
    simp only [ensure_cloudtrail_for_region, List.mem_cons, List.mem_singleton,
      List.not_mem_nil, or_false] at hc
    rcases hc with rfl | rfl <;> rfl
  | cons t rest =>
    simp only [ensure_cloudtrail_for_region, List.mem_cons, List.mem_singleton,
      List.not_mem_nil, or_false] at hc
    rcases hc with rfl | rfl <;> rfl

theorem ensure_for_region_shape (r b p : String) (tl : List Trail) :
    ∃ c t, ensure_cloudtrail_for_region r tl b p = [c, .startLogging r t] ∧
      (c = .createTrail r t b p true ∨ c = .updateTrail r t b p true) := by
  cases tl with
  | nil => exact ⟨_, "Default", rfl, .inl rfl⟩
  | cons t rest => exact ⟨_, t.Name, rfl, .inr rfl⟩

theorem ensure_cloudtrail_regions_mem (regions : List String)
    (describe_trails : String → List Trail) (b p : String) :
    ∀ c ∈ ensure_cloudtrail regions describe_trails b p, c.region ∈ regions := by
  induction regions with
  | nil => simp [ensure_cloudtrail_nil]
  | cons r rs ih =>
    intro c hc
    rw [ensure_cloudtrail_cons] at hc
    rcases List.mem_append.mp hc with hc | hc
    · exact List.mem_cons.mpr (.inl (ensure_for_region_region r b p _ c hc))
    · exact List.mem_cons.mpr (.inr (ih c hc))

theorem ensure_cloudtrail_filter_not_mem (regions : List String)
    (describe_trails : String → List Trail) (b p r : String) (h : r ∉ regions) :
    (ensure_cloudtrail regions describe_trails b p).filter
      (fun k => k.region == r) = [] := by
  rw [List.filter_eq_nil_iff]
  intro c hc
  have hmem := ensure_cloudtrail_regions_mem regions describe_trails b p c hc
  simp only [beq_iff_eq]
  intro he
  exact h (he ▸ hmem)

theorem ensure_for_region_filter_self (r b p : String) (tl : List Trail) :
    (ensure_cloudtrail_for_region r tl b p).filter (fun k => k.region == r)
      = ensure_cloudtrail_for_region r tl b p := by
  rw [List.filter_eq_self]
  intro c hc
  simp [ensure_for_region_region r b p tl c hc]

theorem ensure_for_region_filter_other (r0 b p r : String) (tl : List Trail)
    (hne : r ≠ r0) :
    (ensure_cloudtrail_for_region r0 tl b p).filter (fun k => k.region == r)
      = [] := by
  rw [List.filter_eq_nil_iff]
  intro c hc
  have := ensure_for_region_region r0 b p tl c hc
  simp only [this, beq_iff_eq]
  exact fun he => hne he.symm

theorem trail_region_coverage_aux (describe_trails : String → List Trail)
    (b p r : String) :
    ∀ regions : List String, regions.Nodup → r ∈ regions →
      ∃ c t, (ensure_cloudtrail regions describe_trails b p).filter
          (fun k => k.region == r) = [c, .startLogging r t] ∧
        (c = .createTrail r t b p true ∨ c = .updateTrail r t b p true) := by
  intro regions
  induction regions with
  | nil => intro _ hr; cases hr
  | cons r0 rs ih =>
    intro hnd hr
    rw [ensure_cloudtrail_cons, List.filter_append]
    rcases List.mem_cons.mp hr with rfl | hr2
    · have hnotin : r ∉ rs := (List.nodup_cons.mp hnd).1
      rw [ensure_for_region_filter_self,
          ensure_cloudtrail_filter_not_mem rs describe_trails b p r hnotin,
          List.append_nil]
      exact ensure_for_region_shape r b p (describe_trails r)
    · have hr0 : r0 ∉ rs := (List.nodup_cons.mp hnd).1
      have hne : r ≠ r0 := fun he => hr0 (he ▸ hr2)
      rw [ensure_for_region_filter_other r0 b p r (describe_trails r0) hne,
          List.nil_append]
      exact ih (List.nodup_cons.mp hnd).2 hr2

/-- C5: the trail enabler branches on the describe-trails result: an empty
trail list leads to exactly one create-trail call named Default and no
update; a non-empty list leads to exactly one update-trail call against the
first trail's name and no create; both branches carry the bucket, the key
path and global-service-event inclusion, and are followed by start-logging
on that trail. -/
theorem trail_branch_selection (region_name s3_bucket_name s3_pre tName : String)
    (rest : List Trail) :
    ensure_cloudtrail_for_region region_name [] s3_bucket_name s3_pre
      = [.createTrail region_name "Default" s3_bucket_name s3_pre true,
         .startLogging region_name "Default"] ∧
    ensure_cloudtrail_for_region region_name (⟨tName⟩ :: rest) s3_bucket_name s3_pre
      = [.updateTrail region_name tName s3_bucket_name s3_pre true,
         .startLogging region_name tName] :=
  ⟨rfl, rfl⟩

/-- C6: over a duplicate-free region list, every issued call is directed at a
listed region, and the calls directed at each region are exactly one
create-or-update on that region followed by one start-logging on the same
trail — so start-logging is issued in both branches, once per region. -/
theorem trail_region_coverage (regions : List String)
    (describe_trails : String → List Trail) (b p : String)
    (hnd : regions.Nodup) :
    (∀ c ∈ ensure_cloudtrail regions describe_trails b p, c.region ∈ regions) ∧
    ∀ r ∈ regions, ∃ c t,
      (ensure_cloudtrail regions describe_trails b p).filter
        (fun k => k.region == r) = [c, .startLogging r t] ∧
      (c = .createTrail r t b p true ∨ c = .updateTrail r t b p true) :=
  ⟨ensure_cloudtrail_regions_mem regions describe_trails b p,
   fun r hr => trail_region_coverage_aux describe_trails b p r regions hnd hr⟩

/-- A boto S3 bucket handle; the script only ever reads its name. -/
structure Bucket where
  name : String
deriving DecidableEq

/-- `ensure_s3_bucket` as a function of the `get_bucket` outcome: a lookup
exception with status other than 404 is re-raised; a 404 leaves the handle
unset, so `create_bucket(bucket_name)` runs.  The Bool records whether the
create call was issued. -/
def ensure_s3_bucket (bucket_name : String) (get_bucket_result : Except Nat Bucket) :
    Except Nat (Bucket × Bool) :=
  match get_bucket_result with
  | .ok b => .ok (b, false)
  | .error status =>
    if status ≠ 404 then .error status
    else .ok (⟨bucket_name⟩, true)

/-- The mutating remote calls of one run, in program order. -/
inductive Call where
  | createBucket (bucket_name : String)
  | setPolicy (bucket_name : String) (policy : Json)
  | trail (c : CTCall)

/-- Whether a call is a set-policy (policy-write) call. -/
def Call.isSetPolicy : Call → Bool
  | .setPolicy _ _ => true
  | _ => false

/-- The `__main__` pipeline after argument parsing:
`ensure_s3_bucket; ensure_bucket_policy; ensure_cloudtrail`, as the list of
mutating calls issued plus the error that aborted the run, if any. -/
def run_main (bucket_name s3_pre : String) (get_bucket_result : Except Nat Bucket)
    (get_policy_result : Except Nat Json) (aws_account_id : String)
    (regions : List String) (describe_trails : String → List Trail) :
    List Call × Option RunError :=
  match ensure_s3_bucket bucket_name get_bucket_result with
  | .error status => ([], some (.httpError status))
  | .ok (b, created) =>
    let calls0 : List Call := if created then [.createBucket bucket_name] else []
    match ensure_bucket_policy get_policy_result aws_account_id b.name s3_pre with
    | .error e => (calls0, some e)
    | .ok pol =>
      (calls0 ++ [.setPolicy b.name pol]
        ++ (ensure_cloudtrail regions describe_trails b.name s3_pre).map .trail,
       none)

/-- C7: the bucket ensurer suppresses only a 404 lookup error — then it
issues the create call and returns the new bucket — while any other lookup
status is re-raised, and the whole run aborts with no call issued at all. -/
theorem bucket_lookup_error_handling (bucket_name s3_pre : String) (status : Nat)
    (hne : status ≠ 404) (gpr : Except Nat Json) (acct : String)
    (regions : List String) (describe_trails : String → List Trail) :
    ensure_s3_bucket bucket_name (.error 404) = .ok (⟨bucket_name⟩, true) ∧
    ensure_s3_bucket bucket_name (.error status) = .error status ∧
    run_main bucket_name s3_pre (.error status) gpr acct regions describe_trails
      = ([], some (.httpError status)) := by
  refine ⟨rfl, ?_, ?_⟩
  · simp [ensure_s3_bucket, hne]
  · simp [run_main, ensure_s3_bucket, hne]

/-- C8: a 404 on the policy fetch means "no existing policy": the composer
sets a policy whose Statement list is exactly the ACL-check statement then
the write statement; any other fetch status is re-raised and no set-policy
call appears in the run's trace. -/
theorem policy_fetch_error_handling (A B P : String) (status : Nat)
    (hne : status ≠ 404) (bucket_name s3_pre : String)
    (gbr : Except Nat Bucket) (acct : String) (regions : List String)
    (describe_trails : String → List Trail) :
    ensure_bucket_policy (.error 404) A B P
      = .ok (mkPolicy [get_aws_cloudtrail_aclcheck_s3_policy_statement B,
                       get_aws_cloudtrail_write_s3_policy_statement A B P]) ∧
    statementsOf (mkPolicy [get_aws_cloudtrail_aclcheck_s3_policy_statement B,
                            get_aws_cloudtrail_write_s3_policy_statement A B P])
      = [get_aws_cloudtrail_aclcheck_s3_policy_statement B,
         get_aws_cloudtrail_write_s3_policy_statement A B P] ∧
    ensure_bucket_policy (.error status) A B P = .error (.httpError status) ∧
    ∀ c ∈ (run_main bucket_name s3_pre gbr (.error status) acct regions
        describe_trails).1, c.isSetPolicy = false := by
  refine ⟨rfl, rfl, ?_, ?_⟩
  · simp [ensure_bucket_policy, hne]
  · intro c hc
    unfold run_main at hc
    cases hb : ensure_s3_bucket bucket_name gbr with
    | error st => rw [hb] at hc; cases hc
    | ok pr =>
      obtain ⟨b, created⟩ := pr
      rw [hb] at hc
      have hpol : ensure_bucket_policy (.error status) acct b.name s3_pre
          = .error (.httpError status) := by
        simp [ensure_bucket_policy, hne]
      simp only [hpol] at hc
      cases created with
      | true =>
        simp only [if_true] at hc
        rcases List.mem_singleton.mp hc with rfl
        rfl
      | false =>
        simp only [Bool.false_eq_true, if_false] at hc
        cases hc

/-- The parsed CLI arguments: dest bucket_name (no default, so None when -b
is absent) and dest s3_prefix with default the empty string. -/
structure Args where
  bucket_name : Option String
  s3_pre : String

/-- argparse: the bucket option (-b, long form --bucket) has no default, so
it is None when missing; the key-path option (-p, long form --prefix, stored
as dest s3_prefix) defaults to the empty string. -/
def parse_args (bucket_arg : Option String) (pre_arg : Option String) : Args :=
  ⟨bucket_arg, pre_arg.getD ""⟩

/-- How the process ends: usage text plus `exit(1)`, or the pipeline's
outcome. -/
inductive ProgExit where
  | usageExit (code : Nat)
  | finished (err : Option RunError)

/-- The `__main__` block: parse arguments; `if not (args.bucket_name)` —
missing (None) or empty bucket name — print help and `exit(1)` before any
remote call; otherwise run the pipeline. -/
def program (bucket_arg pre_arg : Option String) (gbr : Except Nat Bucket)
    (gpr : Except Nat Json) (acct : String) (regions : List String)
    (describe_trails : String → List Trail) : List Call × ProgExit :=
  let args := parse_args bucket_arg pre_arg
  match args.bucket_name with
  | none => ([], .usageExit 1)
  | some b =>
    if b.isEmpty then ([], .usageExit 1)
    else
      let r := run_main b args.s3_pre gbr gpr acct regions describe_trails
      (r.1, .finished r.2)

/-- C9: with the bucket argument missing the program prints usage and exits
with status 1 having issued no remote call; the key-path argument is
optional and defaults to the empty string. -/
theorem cli_missing_bucket_usage_exit (pre_arg : Option String)
    (gbr : Except Nat Bucket) (gpr : Except Nat Json) (acct : String)
    (regions : List String) (describe_trails : String → List Trail)
    (bucket_arg : Option String) :
    program none pre_arg gbr gpr acct regions describe_trails
      = ([], .usageExit 1) ∧
    (parse_args bucket_arg none).s3_pre = "" ∧
    (parse_args bucket_arg pre_arg).bucket_name = bucket_arg :=
  ⟨rfl, rfl, rfl⟩

/-- A concrete administrator-owned statement (Sid AllowFoo). -/
def exKeep : Json := .obj [("Sid", .str "AllowFoo"), ("Effect", .str "Deny")]

/-- A concrete stale CloudTrail statement from an earlier run. -/
def exDrop : Json := .obj [("Sid", .str "AWSCloudTrailWrite20120101")]

/-- A concrete pre-existing bucket policy holding both. -/
def exPolicy : Json := mkPolicy [exKeep, exDrop]

/-- The policy the first composer run produces from `exPolicy`. -/
def exResult : Json := mkPolicy ([exKeep]
  ++ [get_aws_cloudtrail_aclcheck_s3_policy_statement "mybucket",
      get_aws_cloudtrail_write_s3_policy_statement "111122223333" "mybucket" "/logs"])

/-- A concrete describe-trails map: one region with no trail, the rest with
an existing trail. -/
def exDescribe : String → List Trail :=
  fun r => if r = "us-east-1" then [] else [⟨"Existing"⟩]

/-- Witness for C1 at a concrete pre-existing policy. -/
theorem ensure_bucket_policy_idempotent_witness :
    ensure_bucket_policy (.ok exResult) "111122223333" "mybucket" "/logs"
      = .ok exResult ∧
    countWithSid (statementsOf exResult) "AWSCloudTrailAclCheck20131101" = 1 ∧
    countWithSid (statementsOf exResult) "AWSCloudTrailWrite20131101" = 1 ∧
    ∀ P0, (Except.ok exPolicy : Except Nat Json) = .ok P0 →
      ∀ s ∈ statementsOf P0, ∀ sid, s.lookup "Sid" = some (.str sid) →
        sid_matches_cloudtrail sid = false → s ∈ statementsOf exResult :=
  ensure_bucket_policy_idempotent (.ok exPolicy) "111122223333" "mybucket"
    "/logs" exResult rfl

/-- Witness for C2 at a concrete merge. -/
theorem strip_keeps_iff_sid_not_cloudtrail_witness :
    exKeep ∈ [exKeep] ↔
      ¬("AWSCloudTrailAclCheck".data <+: "AllowFoo".data ∨
        "AWSCloudTrailWrite".data <+: "AllowFoo".data) :=
  strip_keeps_iff_sid_not_cloudtrail
    (rfl : stripStatements [exDrop, exKeep] = .ok [exKeep])
    exKeep (List.mem_cons_of_mem _ (List.mem_cons_self _ _)) "AllowFoo" rfl

/-- Witness for C6 on a concrete two-region enumeration. -/
theorem trail_region_coverage_witness :
    (∀ c ∈ ensure_cloudtrail ["us-east-1", "eu-west-1"] exDescribe
        "mybucket" "/logs", c.region ∈ ["us-east-1", "eu-west-1"]) ∧
    ∀ r ∈ ["us-east-1", "eu-west-1"], ∃ c t,
      (ensure_cloudtrail ["us-east-1", "eu-west-1"] exDescribe
          "mybucket" "/logs").filter (fun k => k.region == r)
        = [c, .startLogging r t] ∧
      (c = .createTrail r t "mybucket" "/logs" true ∨
       c = .updateTrail r t "mybucket" "/logs" true) :=
  trail_region_coverage ["us-east-1", "eu-west-1"] exDescribe "mybucket" "/logs"
    (by decide)

/-- Witness for C7 at lookup status 403. -/
theorem bucket_lookup_error_handling_witness :
    ensure_s3_bucket "mybucket" (.error 404) = .ok (⟨"mybucket"⟩, true) ∧
    ensure_s3_bucket "mybucket" (.error 403) = .error 403 ∧
    run_main "mybucket" "/logs" (.error 403) (.error 404) "111122223333"
      ["us-east-1"] exDescribe = ([], some (.httpError 403)) :=
  bucket_lookup_error_handling "mybucket" "/logs" 403 (by decide) (.error 404)
    "111122223333" ["us-east-1"] exDescribe

/-- Witness for C8 at policy-fetch status 500. -/
theorem policy_fetch_error_handling_witness :
    ensure_bucket_policy (.error 404) "111122223333" "mybucket" "/logs"
      = .ok (mkPolicy
        [get_aws_cloudtrail_aclcheck_s3_policy_statement "mybucket",
         get_aws_cloudtrail_write_s3_policy_statement "111122223333" "mybucket" "/logs"]) ∧
    statementsOf (mkPolicy
        [get_aws_cloudtrail_aclcheck_s3_policy_statement "mybucket",
         get_aws_cloudtrail_write_s3_policy_statement "111122223333" "mybucket" "/logs"])
      = [get_aws_cloudtrail_aclcheck_s3_policy_statement "mybucket",
         get_aws_cloudtrail_write_s3_policy_statement "111122223333" "mybucket" "/logs"] ∧
    ensure_bucket_policy (.error 500) "111122223333" "mybucket" "/logs"
      = .error (.httpError 500) ∧
    ∀ c ∈ (run_main "mybucket" "/logs" (.ok ⟨"mybucket"⟩) (.error 500)
        "111122223333" ["us-east-1"] exDescribe).1, c.isSetPolicy = false :=
  policy_fetch_error_handling "111122223333" "mybucket" "/logs" 500 (by decide)
    "mybucket" "/logs" (.ok ⟨"mybucket"⟩) "111122223333" ["us-east-1"] exDescribe
